import Mathlib

/-!
Verification of the projetvideo background-task orchestration layer.

This file gives a shallow embedding of the two source files
`src/app_ui.py` (worker and UI-trigger logic) and `src/moteurs/youtube.py`
(format catalog and download option assembly), and settles the frozen
claims C1 to C10 about them.

Python-specific semantics are modelled explicitly: truthiness of optional
strings and integers, floor division and modulo (`divmod`), truncating
`int()` conversion, and lexicographic tuple comparison used as a sort key.
Byte rates and frame rates, which are floats in the source, are modelled
as exact rationals.
-/

/-- Model of Python `str.lower()` restricted to ASCII case folding. -/
def pyLower (s : String) : String := String.mk (s.data.map Char.toLower)

/-- Characters removed by Python `str.strip()` with no argument. -/
def isPySpace (c : Char) : Bool :=
  c = ' ' || c = '\t' || c = '\n' || c = '\r' || c = '\x0b' || c = '\x0c'

/-- Model of Python `str.strip()`: drop whitespace at both ends. -/
def pyStrip (s : String) : String :=
  String.mk (((s.data.dropWhile isPySpace).reverse.dropWhile isPySpace).reverse)

/-- Python `a or b` where `a` is an optional string; `None` and `""` are falsy. -/
def pyOrStr (a : Option String) (b : String) : String :=
  match a with
  | none => b
  | some s => if s = "" then b else s

/-- Python `a or b` where `a` is an optional integer; `None` and `0` are falsy. -/
def pyOrInt (a : Option Int) (b : Int) : Int :=
  match a with
  | none => b
  | some v => if v = 0 then b else v

/-- Python truthiness of an optional string value. -/
def pyTruthyStr (o : Option String) : Bool :=
  match o with
  | none => false
  | some s => !(s == "")

/-- Model of Python `str(x)` on an optional string, where `str(None) = "None"`. -/
def pyStrOfOpt (o : Option String) : String :=
  match o with
  | some s => s
  | none => "None"

/-- Prefix test on character lists, used to model Python substring search. -/
def substrAux : List Char → List Char → Bool
  | [], _ => true
  | _ :: _, [] => false
  | c :: cs, d :: ds => c = d && substrAux cs ds

/-- Substring containment on character lists. -/
def containsSub (hay nee : List Char) : Bool :=
  match hay with
  | [] => nee.isEmpty
  | _ :: t => substrAux nee hay || containsSub t nee

/-- Model of the Python string membership test `nee in hay`. -/
def strIn (nee hay : String) : Bool := containsSub hay.data nee.data

/-- Model of the Python format spec `{:02d}` applied to an integer. -/
def pad2 (n : Int) : String :=
  if 0 ≤ n ∧ n < 10 then "0" ++ toString n else toString n

/-!
## Model of `src/moteurs/youtube.py`
-/

/-- One raw encoding record coming from the engine, with the keys the source
reads from the dictionary, each possibly absent. -/
structure RawFormat where
  format_id : Option String
  ext : Option String
  resolution : Option String
  height : Option Int
  width : Option Int
  fps : Option ℚ
  vcodec : Option String
  acodec : Option String
  filesize : Option Int
deriving DecidableEq

/-- The `FormatInfo` dataclass of `src/moteurs/youtube.py`. -/
structure FormatInfo where
  format_id : String
  ext : String
  resolution : String
  height : Option Int
  fps : Option ℚ
  vcodec : String
  acodec : String
  filesize : Option Int
deriving DecidableEq

/-- `FormatInfo.from_dict`: parse one raw record, synthesizing the resolution
from width and height when the raw resolution is falsy and both dimensions
are truthy. -/
def FormatInfo.from_dict (data : RawFormat) : FormatInfo :=
  let resolution0 := pyOrStr data.resolution ""
  let resolution :=
    if resolution0 = "" then
      match data.height, data.width with
      | some h, some w =>
          if h ≠ 0 ∧ w ≠ 0 then toString w ++ "x" ++ toString h else ""
      | _, _ => ""
    else resolution0
  { format_id := pyStrOfOpt data.format_id
    ext := pyOrStr data.ext ""
    resolution := resolution
    height := data.height
    fps := data.fps
    vcodec := pyOrStr data.vcodec ""
    acodec := pyOrStr data.acodec ""
    filesize := data.filesize }

/-- `FormatInfo.preferred`: the `(ext_score, codec_score)` preference weight. -/
def FormatInfo.preferred (f : FormatInfo) : Nat × Nat :=
  let ext_score : Nat := if pyLower f.ext = "mp4" then 0 else 1
  let codec_lower := pyLower f.vcodec
  let codec_score : Nat :=
    if strIn "avc" codec_lower || strIn "h264" codec_lower then 0 else 1
  (ext_score, codec_score)

/-- The full sort key `(info.preferred, -(info.height or 0), -(info.fps or 0.0))`
of `_format_listing`, as a lexicographically ordered tuple, matching the
Python tuple comparison used by `list.sort`. -/
def sortKey (info : FormatInfo) : Lex (Nat × Lex (Nat × Lex (Int × ℚ))) :=
  toLex (info.preferred.1,
    toLex (info.preferred.2,
      toLex (-(info.height.getD 0), -(info.fps.getD 0))))

/-- Boolean comparison on format records by their sort key. -/
def keyLe (a b : FormatInfo) : Bool := decide (sortKey a ≤ sortKey b)

/-- `_format_listing`: drop raw records with a falsy `vcodec`, parse the rest,
and sort by the preference key. Python `list.sort` is a stable ascending
sort, modelled by `List.mergeSort`. -/
def _format_listing (formats : List RawFormat) : List FormatInfo :=
  ((formats.filter fun fmt => pyTruthyStr fmt.vcodec).map FormatInfo.from_dict).mergeSort keyLe

/-- `_build_format_selector`: the format selector string handed to the engine. -/
def _build_format_selector (fmt_id : Option String) : String :=
  match fmt_id with
  | some s =>
      if s ≠ "" then s ++ "+bestaudio/bestvideo+bestaudio/best"
      else "bestvideo+bestaudio/best"
  | none => "bestvideo+bestaudio/best"

/-- The output template `download` passes to the engine. -/
def downloadOuttmpl (output_dir : String) : String :=
  output_dir ++ "/" ++ "%(title)s [%(id)s].%(ext)s"

/-- The engine options dictionary assembled by `download`. -/
structure YdlDownloadOpts where
  outtmpl : String
  merge_output_format : String
  noplaylist : Bool
  quiet : Bool
  concurrent_fragment_downloads : Nat
  format : String
deriving DecidableEq

/-- The options `download` builds before invoking the engine. -/
def download_ydl_opts (fmt_id : Option String) (output_dir : String) : YdlDownloadOpts :=
  { outtmpl := downloadOuttmpl output_dir
    merge_output_format := "mp4"
    noplaylist := true
    quiet := true
    concurrent_fragment_downloads := 3
    format := _build_format_selector fmt_id }

/-!
## Model of `src/app_ui.py`
-/

/-- One raw progress record delivered to the progress hook, with the keys the
hook reads, each possibly absent. -/
structure ProgressData where
  status : Option String
  downloaded_bytes : Option Int
  total_bytes : Option Int
  total_bytes_estimate : Option Int
  speed : Option ℚ
  eta : Option Int
deriving DecidableEq

/-- The signals a download worker can emit, in emission order. -/
inductive Event where
  | status (s : String)
  | progress (n : Int)
  | speed (s : String)
  | eta (s : String)
  | error (s : String)
  | done (path : String)
deriving DecidableEq

/-- The coalesced total `data.get("total_bytes") or data.get("total_bytes_estimate") or 0`. -/
def coalesceTotal (total_bytes total_bytes_estimate : Option Int) : Int :=
  pyOrInt total_bytes (pyOrInt total_bytes_estimate 0)

/-- The percent computation of the progress hook: emitted only when the
coalesced total is truthy, as `int(downloaded * 100 / total)` which truncates
toward zero. -/
def computePercent (downloaded_bytes total_bytes total_bytes_estimate : Option Int) : Option Int :=
  let downloaded := pyOrInt downloaded_bytes 0
  let total := coalesceTotal total_bytes total_bytes_estimate
  if total ≠ 0 then some (Int.tdiv (downloaded * 100) total) else none

/-- The unit labels of `_human_readable_rate`. -/
def rateUnits : List String := ["B/s", "KB/s", "MB/s", "GB/s"]

/-- The division loop of `_human_readable_rate`: divide by 1024 while the rate
is at least 1024 and the unit index is below `len(units) - 1 = 3`. -/
def rateLoop (rate : ℚ) (index : Nat) : ℚ × Nat :=
  if h : 1024 ≤ rate ∧ index < 3 then rateLoop (rate / 1024) (index + 1)
  else (rate, index)
termination_by 3 - index
decreasing_by omega

/-- Round half to even, the rounding used by Python float formatting. -/
def roundHalfEven (q : ℚ) : Int :=
  let f := ⌊q⌋
  let r := q - f
  if r < 1 / 2 then f
  else if 1 / 2 < r then f + 1
  else if f % 2 = 0 then f else f + 1

/-- Model of the Python format spec `{:.1f}` on an exact rational. -/
def formatFixed1 (q : ℚ) : String :=
  let n := roundHalfEven (q * 10)
  if n < 0 then
    "-" ++ toString ((-n).tdiv 10) ++ "." ++ toString ((-n).tmod 10)
  else
    toString (n.tdiv 10) ++ "." ++ toString (n.tmod 10)

/-- `DownloadWorker._human_readable_rate`. -/
def _human_readable_rate (rate : ℚ) : String :=
  let p := rateLoop rate 0
  formatFixed1 p.1 ++ " " ++ rateUnits.getD p.2 ""

/-- `DownloadWorker._format_eta`: two `divmod` splits then formatting, where
Python `divmod` is floor division paired with the matching modulo. -/
def _format_eta (seconds : Int) : String :=
  let minutes0 := seconds.fdiv 60
  let secs := seconds.fmod 60
  let hours := minutes0.fdiv 60
  let minutes := minutes0.fmod 60
  if hours ≠ 0 then
    toString hours ++ "h " ++ pad2 minutes ++ "m " ++ pad2 secs ++ "s"
  else if minutes ≠ 0 then
    toString minutes ++ "m " ++ pad2 secs ++ "s"
  else
    toString secs ++ "s"

/-- The `progress_hook` closure of `DownloadWorker.run`: the events emitted for
one raw progress record, in order. -/
def progressHook (data : ProgressData) : List Event :=
  (if (data.status.getD "") ≠ "" then [Event.status (data.status.getD "")] else []) ++
  ((computePercent data.downloaded_bytes data.total_bytes data.total_bytes_estimate).toList.map
    Event.progress) ++
  (match data.speed with
   | some v => if v ≠ 0 then [Event.speed (_human_readable_rate v)] else []
   | none => []) ++
  (match data.eta with
   | some n => [Event.eta (_format_eta n)]
   | none => [])

/-- Outcome of one engine download call. -/
inductive EngineResult where
  | ok (path : String)
  | err (msg : String)
deriving DecidableEq

/-- `DownloadWorker.run`: every progress record is fed through the hook; an
engine failure is caught and emits the error signal with its message, then
the worker returns; on success the worker emits the finishing sequence
followed by the done signal with the exact path the engine reported. -/
def workerRun (records : List ProgressData) (result : EngineResult) : List Event :=
  (records.flatMap progressHook) ++
  match result with
  | EngineResult.err msg => [Event.error msg]
  | EngineResult.ok path =>
      [Event.status "finished", Event.progress 100, Event.speed "",
       Event.eta "", Event.done path]

/-- The orchestration-relevant state of `YouTubeTab`: how many download and
analysis workers are live, and whether the two trigger buttons are enabled. -/
structure TabState where
  runningDownloads : Nat
  runningAnalyses : Nat
  downloadButtonEnabled : Bool
  analyseButtonEnabled : Bool
deriving DecidableEq

/-- Synchronous outcome of a trigger call. The spec names a
`taskAlreadyRunning` outcome; the source has no code path producing it. -/
inductive TriggerOutcome where
  | inputError
  | started
  | taskAlreadyRunning
deriving DecidableEq

/-- `YouTubeTab._trigger_download`: reject a blank URL, otherwise disable the
download button and start a fresh worker thread unconditionally, on top of
any worker already running. -/
def _trigger_download (s : TabState) (urlText : String) : TriggerOutcome × TabState :=
  if pyStrip urlText = "" then (TriggerOutcome.inputError, s)
  else
    (TriggerOutcome.started,
     { s with downloadButtonEnabled := false,
              runningDownloads := s.runningDownloads + 1 })

/-- `YouTubeTab._trigger_analysis`: reject a blank URL, otherwise disable both
buttons and start a fresh analysis worker thread unconditionally. -/
def _trigger_analysis (s : TabState) (urlText : String) : TriggerOutcome × TabState :=
  if pyStrip urlText = "" then (TriggerOutcome.inputError, s)
  else
    (TriggerOutcome.started,
     { s with analyseButtonEnabled := false,
              downloadButtonEnabled := false,
              runningAnalyses := s.runningAnalyses + 1 })

/-- The state change of `YouTubeTab._download_error` together with the thread
teardown wired to the error signal: the worker thread is released and the
download button is re-enabled when a table row is selected. -/
def _download_error_transition (s : TabState) (hasSelection : Bool) : TabState :=
  { s with runningDownloads := s.runningDownloads - 1,
           downloadButtonEnabled := hasSelection }

/-- The default-selection predicate of `YouTubeTab._select_default_format`. -/
def isPreferredFormat (info : FormatInfo) : Bool :=
  pyLower info.ext == "mp4" &&
    (strIn "avc" (pyLower info.vcodec) || strIn "h264" (pyLower info.vcodec))

/-- `YouTubeTab._select_default_format`: the row index selected, namely the
first preferred row, else row 0 when the catalog is nonempty, else none. -/
def _select_default_format (formats : List FormatInfo) : Option Nat :=
  match formats.findIdx? isPreferredFormat with
  | some i => some i
  | none => if formats.isEmpty then none else some 0

/-- The format record the default selection denotes. -/
def selectDefault (formats : List FormatInfo) : Option FormatInfo :=
  (_select_default_format formats).bind fun i => formats[i]?

/-!
## Event projections used by the claims
-/

/-- Messages of the error events of a signal trace. -/
def errorMsgs (evs : List Event) : List String :=
  evs.filterMap fun e => match e with | Event.error m => some m | _ => none

/-- Paths of the done events of a signal trace. -/
def donePaths (evs : List Event) : List String :=
  evs.filterMap fun e => match e with | Event.done p => some p | _ => none

/-- Values of the progress events of a signal trace. -/
def progressValues (evs : List Event) : List Int :=
  evs.filterMap fun e => match e with | Event.progress n => some n | _ => none

/-- Strings of the speed events of a signal trace. -/
def speedValues (evs : List Event) : List String :=
  evs.filterMap fun e => match e with | Event.speed s => some s | _ => none

/-- Strings of the eta events of a signal trace. -/
def etaValues (evs : List Event) : List String :=
  evs.filterMap fun e => match e with | Event.eta s => some s | _ => none

/-!
## Shared lemmas about the progress hook
-/

/-- Every event the progress hook emits is a status, progress, speed or eta
event; the hook never emits error or done. -/
theorem progressHook_shapes (data : ProgressData) (e : Event) (he : e ∈ progressHook data) :
    (∃ s, e = Event.status s) ∨ (∃ n, e = Event.progress n) ∨
    (∃ s, e = Event.speed s) ∨ (∃ s, e = Event.eta s) := by
  unfold progressHook at he
  simp only [List.mem_append] at he
  rcases he with ((h | h) | h) | h
  · left
    split at h <;> simp_all
  · right; left
    simp only [List.mem_map, Option.mem_toList] at h
    obtain ⟨n, -, rfl⟩ := h
    exact ⟨n, rfl⟩
  · right; right; left
    rcases hs : data.speed with - | v <;> rw [hs] at h
    · simp at h
    · split at h <;> simp_all
  · right; right; right
    rcases hs : data.eta with - | n <;> rw [hs] at h
    · simp at h
    · simp_all

/-- The progress hook emits no error event. -/
theorem errorMsgs_progressHook (data : ProgressData) : errorMsgs (progressHook data) = [] := by
  rw [errorMsgs, List.filterMap_eq_nil_iff]
  intro e he
  rcases progressHook_shapes data e he with ⟨s, rfl⟩ | ⟨n, rfl⟩ | ⟨s, rfl⟩ | ⟨s, rfl⟩ <;> rfl

/-- The progress hook emits no done event. -/
theorem donePaths_progressHook (data : ProgressData) : donePaths (progressHook data) = [] := by
  rw [donePaths, List.filterMap_eq_nil_iff]
  intro e he
  rcases progressHook_shapes data e he with ⟨s, rfl⟩ | ⟨n, rfl⟩ | ⟨s, rfl⟩ | ⟨s, rfl⟩ <;> rfl

/-- A sequence of hook invocations emits no error event. -/
theorem errorMsgs_hooks (records : List ProgressData) :
    errorMsgs (records.flatMap progressHook) = [] := by
  induction records with
  | nil => rfl
  | cons r t ih =>
      rw [List.flatMap_cons, errorMsgs, List.filterMap_append]
      rw [errorMsgs] at ih
      rw [ih, List.append_nil]
      exact errorMsgs_progressHook r

/-- A sequence of hook invocations emits no done event. -/
theorem donePaths_hooks (records : List ProgressData) :
    donePaths (records.flatMap progressHook) = [] := by
  induction records with
  | nil => rfl
  | cons r t ih =>
      rw [List.flatMap_cons, donePaths, List.filterMap_append]
      rw [donePaths] at ih
      rw [ih, List.append_nil]
      exact donePaths_progressHook r

/-!
## C1: single-flight enforcement
-/

/-- A tab state in which one download worker is already running. -/
def busyDownloadState : TabState :=
  { runningDownloads := 1
    runningAnalyses := 0
    downloadButtonEnabled := false
    analyseButtonEnabled := true }

/-- C1 is false on the code: with a Download task running, a download trigger
with a non-blank URL does not fail with TaskAlreadyRunning; it reports a
start and a second download worker is now live. -/
theorem C1_counterexample :
    (_trigger_download busyDownloadState "https://www.youtube.com/watch?v=x").1 ≠
      TriggerOutcome.taskAlreadyRunning ∧
    (_trigger_download busyDownloadState "https://www.youtube.com/watch?v=x").1 =
      TriggerOutcome.started ∧
    (_trigger_download busyDownloadState "https://www.youtube.com/watch?v=x").2.runningDownloads
      = 2 := by
  refine ⟨?_, ?_, ?_⟩ <;> decide

/-- C1 (amended): the trigger paths validate only the URL. Neither trigger can
fail with TaskAlreadyRunning; a call with a non-blank URL always starts one
more worker of its kind, whatever is already running, and a call with a blank
URL changes nothing. Overlap is prevented only at the presentation layer, by
disabling the buttons while a worker runs. -/
theorem C1_amended (s : TabState) (url : String) :
    (_trigger_download s url).1 ≠ TriggerOutcome.taskAlreadyRunning ∧
    (_trigger_download s url).2.runningDownloads =
      (if pyStrip url = "" then s.runningDownloads else s.runningDownloads + 1) ∧
    (_trigger_analysis s url).1 ≠ TriggerOutcome.taskAlreadyRunning ∧
    (_trigger_analysis s url).2.runningAnalyses =
      (if pyStrip url = "" then s.runningAnalyses else s.runningAnalyses + 1) ∧
    (pyStrip url = "" → (_trigger_download s url).2 = s ∧ (_trigger_analysis s url).2 = s) := by
  unfold _trigger_download _trigger_analysis
  by_cases h : pyStrip url = "" <;> simp [h]

/-- Witness for C1 (amended) at a concrete state and URL. -/
theorem C1_amended_witness :
    (_trigger_download busyDownloadState "u").1 ≠ TriggerOutcome.taskAlreadyRunning ∧
    (_trigger_download busyDownloadState "u").2.runningDownloads =
      (if pyStrip "u" = "" then busyDownloadState.runningDownloads
       else busyDownloadState.runningDownloads + 1) ∧
    (_trigger_analysis busyDownloadState "u").1 ≠ TriggerOutcome.taskAlreadyRunning ∧
    (_trigger_analysis busyDownloadState "u").2.runningAnalyses =
      (if pyStrip "u" = "" then busyDownloadState.runningAnalyses
       else busyDownloadState.runningAnalyses + 1) ∧
    (pyStrip "u" = "" →
      (_trigger_download busyDownloadState "u").2 = busyDownloadState ∧
      (_trigger_analysis busyDownloadState "u").2 = busyDownloadState) :=
  C1_amended busyDownloadState "u"

/-!
## C2: percent computation
-/

/-- C2 is false on the code: the computed percent is not clamped to the range
0 to 100. With 300 bytes downloaded of a 200 byte total the hook emits 150. -/
theorem C2_counterexample :
    computePercent (some 300) (some 200) none = some 150 ∧ ¬ (150 : Int) ≤ 100 := by
  refine ⟨?_, by decide⟩
  decide

/-- C2 (amended): when the coalesced total is nonzero, including when it is
negative, the percent equals the truncation toward zero of
`downloaded * 100 / total` with no clamping; the percent is absent exactly
when the coalesced total is zero or both total keys are absent or falsy. The
spec examples `computePercent(50, 200) = 25` and `computePercent(x, 0)`
absent for every `x` do hold, and the progress events the hook emits are
exactly the optional percent. -/
theorem C2_amended (d tb te : Option Int) :
    (computePercent d tb te =
      if coalesceTotal tb te = 0 then none
      else some (Int.tdiv (pyOrInt d 0 * 100) (coalesceTotal tb te))) ∧
    computePercent (some 50) (some 200) none = some 25 ∧
    (∀ x : Option Int, computePercent x (some 0) none = none) ∧
    computePercent (some 300) (some 200) none = some 150 ∧
    (∀ data : ProgressData,
      progressValues (progressHook data) =
        (computePercent data.downloaded_bytes data.total_bytes data.total_bytes_estimate).toList) := by
  refine ⟨?_, by decide, ?_, by decide, ?_⟩
  · unfold computePercent
    by_cases h : coalesceTotal tb te = 0 <;> simp [h]
  · intro x
    unfold computePercent coalesceTotal pyOrInt
    simp
  · intro data
    unfold progressHook progressValues
    rw [List.filterMap_append, List.filterMap_append, List.filterMap_append]
    have h1 : (if (data.status.getD "") ≠ "" then [Event.status (data.status.getD "")]
        else []).filterMap
          (fun e => match e with | Event.progress n => some n | _ => none) = [] := by
      split <;> rfl
    have h3 : (match data.speed with
        | some v => if v ≠ 0 then [Event.speed (_human_readable_rate v)] else []
        | none => []).filterMap
          (fun e => match e with | Event.progress n => some n | _ => none) = [] := by
      rcases data.speed with - | v
      · rfl
      · show (if v ≠ 0 then [Event.speed (_human_readable_rate v)] else []).filterMap
            (fun e => match e with | Event.progress n => some n | _ => none) = []
        split <;> rfl
    have h4 : (match data.eta with
        | some n => [Event.eta (_format_eta n)]
        | none => []).filterMap
          (fun e => match e with | Event.progress n => some n | _ => none) = [] := by
      rcases data.eta with - | n <;> rfl
    rw [h1, h3, h4, List.nil_append, List.append_nil, List.append_nil]
    rcases computePercent data.downloaded_bytes data.total_bytes data.total_bytes_estimate
      with - | n <;> rfl

/-!
## C3: eta formatting on negative input
-/

/-- C3 is false on the code: a negative eta is not rendered as an empty or
absent result. Python floor divmod turns -5 seconds into the non-empty string
"-1h 59m 55s". -/
theorem C3_counterexample :
    _format_eta (-5) = "-1h 59m 55s" ∧ _format_eta (-5) ≠ "" := by
  refine ⟨?_, ?_⟩ <;> decide

/-- C3 (amended): a negative seconds value never raises and never yields an
empty string; it always takes the hours branch with a negative hours
component, rendered through the floor divmod splits. An absent eta value is
handled at the caller: the hook emits no eta event when the key is absent. -/
theorem C3_amended (s : Int) (hneg : s < 0) :
    _format_eta s =
      toString ((s.fdiv 60).fdiv 60) ++ "h " ++ pad2 ((s.fdiv 60).fmod 60) ++ "m " ++
        pad2 (s.fmod 60) ++ "s" ∧
    (s.fdiv 60).fdiv 60 < 0 ∧
    _format_eta s ≠ "" ∧
    (∀ data : ProgressData, data.eta = none → etaValues (progressHook data) = []) := by
  have h60 : s.fdiv 60 < 0 := Int.fdiv_neg' hneg (by norm_num)
  have hh : (s.fdiv 60).fdiv 60 < 0 := Int.fdiv_neg' h60 (by norm_num)
  have hstr : _format_eta s =
      toString ((s.fdiv 60).fdiv 60) ++ "h " ++ pad2 ((s.fdiv 60).fmod 60) ++ "m " ++
        pad2 (s.fmod 60) ++ "s" := by
    unfold _format_eta
    rw [if_pos (by omega : (s.fdiv 60).fdiv 60 ≠ 0)]
  refine ⟨hstr, hh, ?_, ?_⟩
  · rw [hstr]
    intro hcontra
    have hlen := congrArg String.length hcontra
    simp [String.length_append] at hlen
    exact absurd hlen.2 (by decide)
  · intro data hdata
    obtain ⟨st, db, tb, te, sp, et⟩ := data
    simp only at hdata
    subst hdata
    unfold progressHook etaValues
    rw [List.filterMap_append, List.filterMap_append, List.filterMap_append]
    have h1 : (if (Option.getD st "") ≠ "" then [Event.status (Option.getD st "")]
        else []).filterMap
          (fun e => match e with | Event.eta s => some s | _ => none) = [] := by
      split <;> rfl
    have h2 : ((computePercent db tb te).toList.map Event.progress).filterMap
          (fun e => match e with | Event.eta s => some s | _ => none) = [] := by
      rcases computePercent db tb te with - | n <;> rfl
    have h3 : (match sp with
        | some v => if v ≠ 0 then [Event.speed (_human_readable_rate v)] else []
        | none => []).filterMap
          (fun e => match e with | Event.eta s => some s | _ => none) = [] := by
      rcases sp with - | v
      · rfl
      · show (if v ≠ 0 then [Event.speed (_human_readable_rate v)] else []).filterMap
            (fun e => match e with | Event.eta s => some s | _ => none) = []
        split <;> rfl
    rw [h1, h2, h3]
    rfl

/-- Witness for C3 (amended) at -5 seconds. -/
theorem C3_amended_witness :
    (-5 : Int) < 0 ∧
    (_format_eta (-5) =
      toString (((-5 : Int).fdiv 60).fdiv 60) ++ "h " ++
        pad2 (((-5 : Int).fdiv 60).fmod 60) ++ "m " ++ pad2 ((-5 : Int).fmod 60) ++ "s" ∧
    (((-5 : Int).fdiv 60).fdiv 60 < 0 ∧
    (_format_eta (-5) ≠ "" ∧
    (∀ data : ProgressData, data.eta = none → etaValues (progressHook data) = [])))) :=
  ⟨by decide, C3_amended (-5) (by decide)⟩

/-!
## C4: engine failure during download
-/

/-- C4: an engine failure during download is caught at the worker boundary and
emits exactly one error signal carrying the message of the failure, no done
signal, and the trigger path accepts a new download after the error handler
has released the worker and re-enabled the button. -/
theorem C4_engine_error (records : List ProgressData) (msg : String)
    (s : TabState) (url : String) (hurl : pyStrip url ≠ "") :
    errorMsgs (workerRun records (EngineResult.err msg)) = [msg] ∧
    donePaths (workerRun records (EngineResult.err msg)) = [] ∧
    (_trigger_download (_download_error_transition s true) url).1 =
      TriggerOutcome.started := by
  refine ⟨?_, ?_, ?_⟩
  · rw [workerRun, errorMsgs, List.filterMap_append]
    have h := errorMsgs_hooks records
    rw [errorMsgs] at h
    rw [h, List.nil_append]
    rfl
  · rw [workerRun, donePaths, List.filterMap_append]
    have h := donePaths_hooks records
    rw [donePaths] at h
    rw [h, List.nil_append]
    rfl
  · rw [_trigger_download, if_neg hurl]

/-- Witness for C4 at a concrete trace, message, state and URL. -/
theorem C4_engine_error_witness :
    pyStrip "https://www.youtube.com/watch?v=y" ≠ "" ∧
    (errorMsgs (workerRun [] (EngineResult.err "boom")) = ["boom"] ∧
    donePaths (workerRun [] (EngineResult.err "boom")) = [] ∧
    (_trigger_download
        (_download_error_transition
          { runningDownloads := 1, runningAnalyses := 0,
            downloadButtonEnabled := false, analyseButtonEnabled := true } true)
        "https://www.youtube.com/watch?v=y").1 = TriggerOutcome.started) :=
  ⟨by decide,
   C4_engine_error [] "boom"
     { runningDownloads := 1, runningAnalyses := 0,
       downloadButtonEnabled := false, analyseButtonEnabled := true }
     "https://www.youtube.com/watch?v=y" (by decide)⟩

/-!
## C5: catalog ordering
-/

/-- The sort key comparison is transitive. -/
theorem keyLe_trans (a b c : FormatInfo) (h1 : keyLe a b) (h2 : keyLe b c) : keyLe a c := by
  simp only [keyLe, decide_eq_true_eq] at h1 h2 ⊢
  exact le_trans h1 h2

/-- The sort key comparison is total. -/
theorem keyLe_total (a b : FormatInfo) : keyLe a b || keyLe b a := by
  simp only [keyLe, Bool.or_eq_true, decide_eq_true_eq]
  exact le_total _ _

/-- Comparable records with equal preference scores and equal effective
heights are ordered by descending frame rate. -/
theorem keyLe_fps_tie (a b : FormatInfo) (hle : keyLe a b = true)
    (hp : a.preferred = b.preferred) (hh : a.height.getD 0 = b.height.getD 0) :
    b.fps.getD 0 ≤ a.fps.getD 0 := by
  simp only [keyLe, decide_eq_true_eq] at hle
  simp only [sortKey, hp, hh, Prod.Lex.le_iff] at hle
  rcases hle with h | ⟨-, h⟩
  · exact absurd h (lt_irrefl _)
  rcases h with h | ⟨-, h⟩
  · exact absurd h (lt_irrefl _)
  rcases h with h | ⟨-, h⟩
  · exact absurd h (lt_irrefl _)
  · exact neg_le_neg_iff.mp h

/-- C5: the catalog `_format_listing` returns is sorted ascending by the
lexicographic key `(extensionScore, codecScore, -height, -fps)`, and in
particular, among entries with equal preference scores and equal heights the
higher frame rate comes first. -/
theorem C5_catalog_sorted (raw : List RawFormat) :
    ((_format_listing raw).Pairwise fun a b => sortKey a ≤ sortKey b) ∧
    ((_format_listing raw).Pairwise fun a b =>
      a.preferred = b.preferred → a.height.getD 0 = b.height.getD 0 →
        b.fps.getD 0 ≤ a.fps.getD 0) := by
  have hs : (((raw.filter fun fmt => pyTruthyStr fmt.vcodec).map
      FormatInfo.from_dict).mergeSort keyLe).Pairwise fun a b => keyLe a b = true :=
    List.sorted_mergeSort keyLe_trans keyLe_total _
  rw [_format_listing]
  constructor
  · exact hs.imp fun h => by
      simpa only [keyLe, decide_eq_true_eq] using h
  · exact hs.imp fun h hp hh => keyLe_fps_tie _ _ h hp hh

/-!
## C6: default selection
-/

/-- Resolving the first matching index against the list agrees with `find?`. -/
theorem find_via_findIdx {α : Type} (p : α → Bool) (fs : List α) :
    (fs.findIdx? p).bind (fun i => fs[i]?) = fs.find? p := by
  induction fs with
  | nil => rfl
  | cons f t ih =>
      by_cases h : p f
      · rw [List.findIdx?_cons, if_pos h, List.find?_cons_of_pos _ h]
        simp
      · rw [List.findIdx?_cons, if_neg h, List.findIdx?_succ, List.find?_cons_of_neg _ h, ← ih]
        rcases t.findIdx? p with - | i <;> simp

/-- C6: the default selection is the first catalog entry satisfying the
mp4 and h264 predicate when one exists, else the first entry of the catalog,
else none; a preferred entry exists in the sorted catalog exactly when some
surviving raw record parses to a preferred entry, irrespective of input
order; and the selection predicate coincides with both preference scores
being zero. -/
theorem C6_selectDefault (fs : List FormatInfo) (raw : List RawFormat) :
    (selectDefault fs = match fs.find? isPreferredFormat with
       | some g => some g
       | none => fs.head?) ∧
    selectDefault ([] : List FormatInfo) = none ∧
    (((_format_listing raw).find? isPreferredFormat).isSome ↔
       ∃ fmt ∈ raw, pyTruthyStr fmt.vcodec ∧ isPreferredFormat (FormatInfo.from_dict fmt)) ∧
    (∀ f : FormatInfo, isPreferredFormat f = true ↔ f.preferred = (0, 0)) := by
  refine ⟨?_, rfl, ?_, ?_⟩
  · rcases hidx : fs.findIdx? isPreferredFormat with - | i
    · have hfind : fs.find? isPreferredFormat = none := by
        rw [List.find?_eq_none]
        intro x hx
        have := List.findIdx?_eq_none_iff.mp hidx x hx
        simp [this]
      rw [selectDefault, _select_default_format, hidx, hfind]
      rcases fs with - | ⟨f, t⟩
      · rfl
      · simp
    · have hfi := find_via_findIdx isPreferredFormat fs
      rw [hidx] at hfi
      have hlt : i < fs.length := (List.findIdx?_eq_some_iff_findIdx_eq.mp hidx).1
      have hsome : fs[i]? = some fs[i] := List.getElem?_eq_getElem hlt
      have hfs : fs.find? isPreferredFormat = some fs[i] := by
        rw [← hfi]
        show fs[i]? = some fs[i]
        exact hsome
      rw [selectDefault, _select_default_format, hidx]
      show ((some i).bind fun j => fs[j]?) = _
      rw [hfi, hfs]
  · rw [List.find?_isSome]
    constructor
    · rintro ⟨x, hx, hpx⟩
      rw [_format_listing, List.mem_mergeSort] at hx
      obtain ⟨fmt, hfmt, rfl⟩ := List.mem_map.mp hx
      obtain ⟨hraw, hcodec⟩ := List.mem_filter.mp hfmt
      exact ⟨fmt, hraw, hcodec, hpx⟩
    · rintro ⟨fmt, hraw, hcodec, hp⟩
      refine ⟨FormatInfo.from_dict fmt, ?_, hp⟩
      rw [_format_listing, List.mem_mergeSort]
      exact List.mem_map_of_mem _ (List.mem_filter.mpr ⟨hraw, hcodec⟩)
  · intro f
    by_cases hext : pyLower f.ext = "mp4" <;>
      by_cases hcod : (strIn "avc" (pyLower f.vcodec) || strIn "h264" (pyLower f.vcodec)) = true <;>
        simp [isPreferredFormat, FormatInfo.preferred, hext, hcod]

/-!
## C7: no empty video codec descriptor in the catalog
-/

/-- C7: every entry of the catalog built by `_format_listing` has a non-empty
video codec descriptor, for every raw encoding list. -/
theorem C7_no_empty_vcodec (raw : List RawFormat) (f : FormatInfo)
    (hf : f ∈ _format_listing raw) : f.vcodec ≠ "" := by
  rw [_format_listing, List.mem_mergeSort] at hf
  obtain ⟨fmt, hfmt, rfl⟩ := List.mem_map.mp hf
  have hv := (List.mem_filter.mp hfmt).2
  show pyOrStr fmt.vcodec "" ≠ ""
  rcases hvc : fmt.vcodec with - | s
  · rw [hvc] at hv
    exact absurd hv (by simp [pyTruthyStr])
  · rw [hvc] at hv
    have hs : s ≠ "" := by simpa [pyTruthyStr] using hv
    simp [pyOrStr, hs]

/-- A concrete raw record with a non-empty video codec. -/
def rawSample : RawFormat :=
  { format_id := some "244", ext := some "webm", resolution := none,
    height := some 480, width := some 854, fps := some 30,
    vcodec := some "vp9", acodec := some "opus", filesize := none }

/-- Witness for C7 on a concrete one-record catalog. -/
theorem C7_no_empty_vcodec_witness :
    FormatInfo.from_dict rawSample ∈ _format_listing [rawSample] ∧
    (FormatInfo.from_dict rawSample).vcodec ≠ "" := by
  have hmem : FormatInfo.from_dict rawSample ∈ _format_listing [rawSample] := by
    rw [_format_listing, List.mem_mergeSort]
    simp [pyTruthyStr, rawSample]
  exact ⟨hmem, C7_no_empty_vcodec [rawSample] _ hmem⟩

/-!
## C8: format selector grammar
-/

/-- C8: with a chosen format id the selector is the id followed by
"+bestaudio/bestvideo+bestaudio/best"; with none chosen it is
"bestvideo+bestaudio/best"; and `download` passes exactly this selector, with
mp4 merging, to the engine options. -/
theorem C8_selector (s : String) (hs : s ≠ "") :
    _build_format_selector (some s) = s ++ "+bestaudio/bestvideo+bestaudio/best" ∧
    _build_format_selector none = "bestvideo+bestaudio/best" ∧
    (∀ fid out_dir, (download_ydl_opts fid out_dir).format = _build_format_selector fid ∧
      (download_ydl_opts fid out_dir).merge_output_format = "mp4") := by
  refine ⟨?_, rfl, fun fid out_dir => ⟨rfl, rfl⟩⟩
  show (if s ≠ "" then s ++ "+bestaudio/bestvideo+bestaudio/best"
        else "bestvideo+bestaudio/best") = s ++ "+bestaudio/bestvideo+bestaudio/best"
  rw [if_pos hs]

/-- Witness for C8 at the concrete format id 137. -/
theorem C8_selector_witness :
    ("137" : String) ≠ "" ∧
    (_build_format_selector (some "137") = "137" ++ "+bestaudio/bestvideo+bestaudio/best" ∧
    (_build_format_selector none = "bestvideo+bestaudio/best" ∧
    (∀ fid out_dir, (download_ydl_opts fid out_dir).format = _build_format_selector fid ∧
      (download_ydl_opts fid out_dir).merge_output_format = "mp4"))) :=
  ⟨by decide, C8_selector "137" (by decide)⟩

/-!
## C10: finishing sequence on success
-/

/-- C10: on engine success the worker ends the trace with the finishing
sequence: the last progress value is exactly 100, the last speed and eta
strings are empty, the final signal is done with the exact reported path,
a finished status is emitted, and the done signal appears exactly once. -/
theorem C10_finish_sequence (records : List ProgressData) (p : String) :
    (progressValues (workerRun records (EngineResult.ok p))).getLast? = some 100 ∧
    (speedValues (workerRun records (EngineResult.ok p))).getLast? = some "" ∧
    (etaValues (workerRun records (EngineResult.ok p))).getLast? = some "" ∧
    (workerRun records (EngineResult.ok p)).getLast? = some (Event.done p) ∧
    Event.status "finished" ∈ workerRun records (EngineResult.ok p) ∧
    donePaths (workerRun records (EngineResult.ok p)) = [p] := by
  rw [workerRun]
  refine ⟨?_, ?_, ?_, ?_, ?_, ?_⟩
  · rw [progressValues, List.filterMap_append]
    simp only [List.filterMap_cons, List.filterMap_nil]
    exact List.getLast?_concat _
  · rw [speedValues, List.filterMap_append]
    simp only [List.filterMap_cons, List.filterMap_nil]
    exact List.getLast?_concat _
  · rw [etaValues, List.filterMap_append]
    simp only [List.filterMap_cons, List.filterMap_nil]
    exact List.getLast?_concat _
  · show (records.flatMap progressHook ++
      ([Event.status "finished", Event.progress 100, Event.speed "", Event.eta ""] ++
        [Event.done p])).getLast? = some (Event.done p)
    rw [← List.append_assoc]
    exact List.getLast?_concat _
  · exact List.mem_append.mpr (Or.inr (by simp))
  · rw [donePaths, List.filterMap_append]
    have h := donePaths_hooks records
    rw [donePaths] at h
    rw [h, List.nil_append]
    rfl

/-!
## C9: human readable rate
-/

/-- One-step unfolding of the division loop. -/
theorem rateLoop_unfold (r : ℚ) (i : Nat) :
    rateLoop r i = if 1024 ≤ r ∧ i < 3 then rateLoop (r / 1024) (i + 1) else (r, i) := by
  rw [rateLoop]
  exact dite_eq_ite

/-- C9: the rate formatter divides by 1024 while the value is at least 1024
and the unit index is not the last one: the rendered string is the one-decimal
rendering of the rate divided by 1024 to some power k of at most 3, with the
k-th unit label, every earlier quotient was at least 1024, and the final
quotient is below 1024 unless the last unit was reached. The three spec
examples evaluate as stated. -/
theorem C9_rate (q : ℚ) (hq : 0 ≤ q) :
    (∃ k : Nat, k ≤ 3 ∧
      _human_readable_rate q = formatFixed1 (q / 1024 ^ k) ++ " " ++ rateUnits.getD k "" ∧
      (∀ j : Nat, j < k → 1024 ≤ q / 1024 ^ j) ∧
      (k < 3 → q / 1024 ^ k < 1024)) ∧
    _human_readable_rate 500 = "500.0 B/s" ∧
    _human_readable_rate 2048 = "2.0 KB/s" ∧
    _human_readable_rate 1572864 = "1.5 MB/s" := by
  have p0 : q / 1024 ^ 0 = q := by norm_num
  have p1 : q / 1024 ^ 1 = q / 1024 := by norm_num
  have p2 : q / 1024 ^ 2 = q / 1024 / 1024 := by
    rw [div_div]
    norm_num
  have p3 : q / 1024 ^ 3 = q / 1024 / 1024 / 1024 := by
    rw [div_div, div_div]
    norm_num
  have hk : ∃ k : Nat, k ≤ 3 ∧ rateLoop q 0 = (q / 1024 ^ k, k) ∧
      (∀ j : Nat, j < k → 1024 ≤ q / 1024 ^ j) ∧
      (k < 3 → q / 1024 ^ k < 1024) := by
    by_cases c0 : (1024 : ℚ) ≤ q
    · by_cases c1 : (1024 : ℚ) ≤ q / 1024
      · by_cases c2 : (1024 : ℚ) ≤ q / 1024 / 1024
        · refine ⟨3, le_refl 3, ?_, ?_, by omega⟩
          · rw [rateLoop_unfold, if_pos ⟨c0, by norm_num⟩,
              rateLoop_unfold, if_pos ⟨c1, by norm_num⟩,
              rateLoop_unfold, if_pos ⟨c2, by norm_num⟩,
              rateLoop_unfold, if_neg (fun hcon => absurd hcon.2 (by norm_num)), p3]
          · intro j hj
            interval_cases j
            · rw [p0]; exact c0
            · rw [p1]; exact c1
            · rw [p2]; exact c2
        · refine ⟨2, by norm_num, ?_, ?_, fun _ => ?_⟩
          · rw [rateLoop_unfold, if_pos ⟨c0, by norm_num⟩,
              rateLoop_unfold, if_pos ⟨c1, by norm_num⟩,
              rateLoop_unfold, if_neg (fun hcon => absurd hcon.1 c2), p2]
          · intro j hj
            interval_cases j
            · rw [p0]; exact c0
            · rw [p1]; exact c1
          · rw [p2]
            exact lt_of_not_le c2
      · refine ⟨1, by norm_num, ?_, ?_, fun _ => ?_⟩
        · rw [rateLoop_unfold, if_pos ⟨c0, by norm_num⟩,
            rateLoop_unfold, if_neg (fun hcon => absurd hcon.1 c1), p1]
        · intro j hj
          interval_cases j
          rw [p0]; exact c0
        · rw [p1]
          exact lt_of_not_le c1
    · refine ⟨0, by norm_num, ?_, by omega, fun _ => ?_⟩
      · rw [rateLoop_unfold, if_neg (fun hcon => absurd hcon.1 c0), p0]
      · rw [p0]
        exact lt_of_not_le c0
  obtain ⟨k, hk3, hkeq, hjs, hlast⟩ := hk
  have l500 : rateLoop 500 0 = (500, 0) := by
    rw [rateLoop_unfold, if_neg (fun hcon => absurd hcon.1 (by norm_num))]
  have l2048 : rateLoop 2048 0 = (2, 1) := by
    rw [rateLoop_unfold, if_pos ⟨by norm_num, by norm_num⟩,
      show (2048 : ℚ) / 1024 = 2 by norm_num,
      rateLoop_unfold, if_neg (fun hcon => absurd hcon.1 (by norm_num))]
  have l15 : rateLoop 1572864 0 = (3 / 2, 2) := by
    rw [rateLoop_unfold, if_pos ⟨by norm_num, by norm_num⟩,
      show (1572864 : ℚ) / 1024 = 1536 by norm_num,
      rateLoop_unfold, if_pos ⟨by norm_num, by norm_num⟩,
      show (1536 : ℚ) / 1024 = 3 / 2 by norm_num,
      rateLoop_unfold, if_neg (fun hcon => absurd hcon.1 (by norm_num))]
  have r500 : roundHalfEven (500 * 10) = 5000 := by
    rw [roundHalfEven]
    norm_num
  have r2 : roundHalfEven (2 * 10) = 20 := by
    rw [roundHalfEven]
    norm_num
  have r15 : roundHalfEven (3 / 2 * 10) = 15 := by
    rw [roundHalfEven]
    norm_num
  have f500 : formatFixed1 500 = "500.0" := by
    rw [formatFixed1, r500]
    decide
  have f2 : formatFixed1 2 = "2.0" := by
    rw [formatFixed1, r2]
    decide
  have f15 : formatFixed1 (3 / 2) = "1.5" := by
    rw [formatFixed1, r15]
    decide
  refine ⟨⟨k, hk3, ?_, hjs, hlast⟩, ?_, ?_, ?_⟩
  · rw [_human_readable_rate, hkeq]
  · rw [_human_readable_rate, l500, f500]
    decide
  · rw [_human_readable_rate, l2048, f2]
    decide
  · rw [_human_readable_rate, l15, f15]
    decide

/-- Witness for C9 at the rate 0. -/
theorem C9_rate_witness :
    (0 : ℚ) ≤ 0 ∧
    ((∃ k : Nat, k ≤ 3 ∧
      _human_readable_rate 0 = formatFixed1 ((0 : ℚ) / 1024 ^ k) ++ " " ++ rateUnits.getD k "" ∧
      (∀ j : Nat, j < k → 1024 ≤ (0 : ℚ) / 1024 ^ j) ∧
      (k < 3 → (0 : ℚ) / 1024 ^ k < 1024)) ∧
    _human_readable_rate 500 = "500.0 B/s" ∧
    _human_readable_rate 2048 = "2.0 KB/s" ∧
    _human_readable_rate 1572864 = "1.5 MB/s") :=
  ⟨le_refl 0, C9_rate 0 (le_refl 0)⟩
